import Mathlib

/-!
Verification of the debase symbol-matching core.

This file gives a shallow embedding, in Lean 4, of the pattern lexer,
pattern compiler, pattern-node matcher, file-property cache, symbol
matcher, and the two demangler adapters of the debase tool, translated
from the C++ sources (driver/Pattern.cpp, driver/Pattern.hpp,
driver/SymbolMatcher.cpp, driver/SymbolMatcher.hpp,
driver/NameClassifier.cpp, driver/SymbolFeatures.hpp,
driver/FilePropertyCache.cpp, driver/Character.hpp), and proves or
refutes a list of specification claims about them.

Conventions used throughout:
- C++ strings (llvm StringRef / std::string) are modelled as Lean String,
  with worker functions on List Char; interning is the identity.
- Machine integers hold small values everywhere they occur here, so they
  are modelled as Nat / Int directly.
- Fallible C++ code (llvm Error / Expected) is modelled with Except.
- Arena pointers are modelled as indices into explicit stores, so that
  pointer equality becomes index equality.
- Debug printing (outs, DumpInfo) has no observable effect on the values
  studied here and is dropped.
-/

deriving instance DecidableEq for Except

namespace Debase

/-! ## String helpers (llvm StringRef operations) -/

/-- The character set trimmed by StringRef.trim(): " \t\n\v\f\r". -/
def isLLVMTrimChar (c : Char) : Bool :=
  c = ' ' ∨ c = '\t' ∨ c = '\n' ∨ c = '\x0b' ∨ c = '\x0c' ∨ c = '\r'

/-- The character set recognized by llvm isSpace. -/
def isLLVMSpace (c : Char) : Bool :=
  c = ' ' ∨ c = '\t' ∨ c = '\n' ∨ c = '\x0b' ∨ c = '\x0c' ∨ c = '\r'

/-- llvm isDigit. -/
def isLLVMDigit (c : Char) : Bool := '0' ≤ c ∧ c ≤ '9'

/-- llvm isUpper. -/
def isLLVMUpper (c : Char) : Bool := 'A' ≤ c ∧ c ≤ 'Z'

/-- llvm isLower. -/
def isLLVMLower (c : Char) : Bool := 'a' ≤ c ∧ c ≤ 'z'

/-- llvm isAlnum (ASCII letters and digits). -/
def isLLVMAlnum (c : Char) : Bool :=
  isLLVMDigit c ∨ isLLVMUpper c ∨ isLLVMLower c

/-- llvm toLower on a single ASCII character. -/
def llvmToLower (c : Char) : Char :=
  if isLLVMUpper c then Char.ofNat (c.toNat + 32) else c

/-- Case-insensitive ASCII equality (StringRef.equals_insensitive). -/
def eqInsensitive (a b : List Char) : Bool :=
  a.map llvmToLower = b.map llvmToLower

/-- StringRef.ltrim(): drop leading trim characters. -/
def ltrim (l : List Char) : List Char := l.dropWhile isLLVMTrimChar

/-- StringRef.rtrim(): drop trailing trim characters. -/
def rtrim (l : List Char) : List Char :=
  (l.reverse.dropWhile isLLVMTrimChar).reverse

/-- StringRef.trim(): drop trim characters from both ends. -/
def trim (l : List Char) : List Char := rtrim (ltrim l)

/-- Index of the first occurrence of the sub-list "pat" in "l", if any. -/
def findSub (pat l : List Char) : Option Nat :=
  match l with
  | [] => if pat = [] then some 0 else none
  | _ :: rest =>
    if pat.isPrefixOf l then some 0
    else (findSub pat rest).map (· + 1)

/-- StringRef.split(Separator): the text before the first occurrence of
the separator, and the text after it; the whole string and "" when the
separator does not occur. -/
def splitSub (sep l : List Char) : List Char × List Char :=
  match findSub sep l with
  | none => (l, [])
  | some i => (l.take i, l.drop (i + sep.length))

/-- StringRef.split(char): split at the first occurrence of a single
character, with the same not-found behavior as splitSub. -/
def splitChar (c : Char) (l : List Char) : List Char × List Char :=
  (l.takeWhile (· ≠ c), (l.dropWhile (· ≠ c)).drop 1)

/-- StringRef.consume_front: drop the prefix when present. -/
def consumeFront (pre l : List Char) : List Char :=
  if pre.isPrefixOf l then l.drop pre.length else l

/-- StringRef.ends_with. -/
def endsWith (suf l : List Char) : Bool := suf.isSuffixOf l

/-! ## Character classifier (driver/Character.hpp) -/

namespace Character

/-- Character.isIdentifier(char): ASCII alphanumeric, underscore or dollar. -/
def isIdentifierChar (c : Char) : Bool :=
  isLLVMAlnum c ∨ c = '_' ∨ c = '$'

/-- Character.isIdentifier(StringRef): every character is an identifier
character. -/
def isIdentifier (l : List Char) : Bool := l.all isIdentifierChar

/-- Character.Kind: the lexer alphabet for single characters. -/
inductive Kind where
  | KUnsupported
  | KEnd
  | KWhitespace
  | KIdentifier
  | KAnonymous
  | KWildcard
  | KZeroOrOne
  | KKleene
  | KKleenePlus
  | KRange
  | KNot
  | KEscape
  | KOpenParen
  | KCloseParen
  | KOpenBrace
  | KCloseBrace
  | KOpenCurly
  | KCloseCurly
  deriving DecidableEq, Repr

/-- Character.identify: classify one character. -/
def identify (c : Char) : Kind :=
  if c = '@' then .KAnonymous
  else if c = '.' then .KWildcard
  else if c = '?' then .KZeroOrOne
  else if c = '*' then .KKleene
  else if c = '+' then .KKleenePlus
  else if c = '-' then .KRange
  else if c = '^' then .KNot
  else if c = '(' then .KOpenParen
  else if c = ')' then .KCloseParen
  else if c = '[' then .KOpenBrace
  else if c = ']' then .KCloseBrace
  else if c = '\x7b' then .KOpenCurly
  else if c = '\x7d' then .KCloseCurly
  else if c = '\\' then .KEscape
  else if c = '\x00' then .KEnd
  else if isIdentifierChar c then .KIdentifier
  else if isLLVMSpace c then .KWhitespace
  else .KUnsupported

end Character

/-! ## Symbol features (driver/SymbolFeatures.hpp) -/

/-- SymbolKind from driver/NameClassifier.hpp. -/
inductive SymbolKind where
  | Invalid
  | Constructor
  | Destructor
  | Other
  | Ignorable
  deriving DecidableEq, Repr

/-- SymbolFeatures: the useful features found in a function symbol.
The base name, once set, is stored as the last element of NestedNames,
with HasBaseName recording that it is present. -/
structure SymbolFeatures where
  NestedNames : List String := []
  SymKind : SymbolKind := .Invalid
  Variant : Int := -1
  HasBaseName : Bool := false
  deriving DecidableEq, Repr

namespace SymbolFeatures

/-- SymbolFeatures.setBase: if a base name is already present, pop it,
then push the new base name and mark it present. -/
def setBase (f : SymbolFeatures) (arg : String) : SymbolFeatures :=
  let names := if f.HasBaseName then f.NestedNames.dropLast else f.NestedNames
  { f with NestedNames := names ++ [arg], HasBaseName := true }

/-- SymbolFeatures.addNested: push a nested name only while no base name
has been set. -/
def addNested (f : SymbolFeatures) (arg : String) : SymbolFeatures :=
  if ¬f.HasBaseName then { f with NestedNames := f.NestedNames ++ [arg] }
  else f

/-- SymbolFeatures.baseName: the last element of NestedNames. The source
asserts HasBaseName and nonemptiness; the default is never observed in
any theorem below. -/
def baseName (f : SymbolFeatures) : String := f.NestedNames.getLastD ""

/-- SymbolFeatures.nestedNames: all but the last element. -/
def nestedNames (f : SymbolFeatures) : List String := f.NestedNames.dropLast

def isCtor (f : SymbolFeatures) : Bool := f.SymKind = .Constructor
def isDtor (f : SymbolFeatures) : Bool := f.SymKind = .Destructor
def isCtorDtor (f : SymbolFeatures) : Bool := f.isCtor ∨ f.isDtor

/-- SymbolFeatures.clear. -/
def clear (_f : SymbolFeatures) : SymbolFeatures :=
  { NestedNames := [], SymKind := .Invalid, Variant := -1, HasBaseName := false }

end SymbolFeatures

/-! ## Itanium classifier (driver/NameClassifier.cpp, namespace gnu)

The llvm itanium demangler is an external collaborator; the classifier
consumes the AST it produces. The AST node shapes used by the classifier
are NameType, NestedName, CtorDtorName and SpecialName; every other node
kind only matters through not being one of these, and is collapsed into
a single constructor carrying its kind name. -/

/-- The slice of the llvm itanium demangler AST consumed by
gnu::ClassifyFunction. -/
inductive INode where
  | nameType (name : String)
  | nestedName (qual : INode) (name : INode)
  | ctorDtorName (basename : INode) (isDtor : Bool) (variant : Int)
  | specialName (special : String) (child : INode)
  | otherNode (kindName : String)
  deriving DecidableEq, Repr

namespace INode

/-- gnu::IsNamedKind: NestedName or NameType. -/
def IsNamedKind : INode → Bool
  | .nestedName _ _ => true
  | .nameType _ => true
  | _ => false

/-- gnu::IsNamedKindEx: NestedName, NameType or SpecialName. -/
def IsNamedKindEx : INode → Bool
  | .specialName _ _ => true
  | n => n.IsNamedKind

end INode

/-- gnu::AddNestedNameToFeatures: append the name chain of a NameType or
NestedName to the output list; any other node kind fails. -/
def AddNestedNameToFeatures : INode → List String → Option (List String)
  | .nameType name, out => some (out ++ [name])
  | .nestedName qual name, out => do
    let out ← AddNestedNameToFeatures qual out
    AddNestedNameToFeatures name out
  | _, _ => none

/-- gnu::AddBaseNameToFeatures: for a NameType, set it as the base; for a
NestedName, add the qualifier chain as nested names and set the inner
NameType as the base (the source asserts the inner node is a NameType);
any other node kind fails. -/
def AddBaseNameToFeatures : INode → SymbolFeatures → Option SymbolFeatures
  | .nameType name, out => some (out.setBase name)
  | .nestedName qual (.nameType name), out => do
    let names ← AddNestedNameToFeatures qual out.NestedNames
    some (({ out with NestedNames := names }).setBase name)
  | _, _ => none

/-- gnu::ClassifyFunction, with a non-null output-features argument.
Note the value returned on the constructor/destructor success path: the
source stores the Constructor/Destructor kind into the features, prints
debug information, and then returns SymbolKind::Invalid. -/
def gnuClassifyFunction (astVal : Option INode) (out : SymbolFeatures) :
    SymbolKind × SymbolFeatures :=
  match astVal with
  | none => (.Invalid, out)
  | some ast =>
    if ¬ast.IsNamedKindEx then (.Invalid, out)
    else
      match ast with
      | .nameType _ => (.Ignorable, { out with SymKind := .Ignorable })
      | .specialName _ _ => (.Other, { out with SymKind := .Other })
      | .nestedName _ name =>
        match name with
        | .ctorDtorName basename isDtor variant =>
          match AddBaseNameToFeatures basename out with
          | some out1 =>
            let out2 := { out1 with
              SymKind := if isDtor then .Destructor else .Constructor,
              Variant := variant }
            -- DumpInfo(); return SymbolKind::Invalid;
            (.Invalid, out2)
          | none => (.Invalid, out.clear)
        | _ => (.Ignorable, { out with SymKind := .Ignorable })
      | _ => (.Invalid, out)

/-- ItaniumClassifier::classify, at the level of the demangler output:
the output features are cleared, then a null AST (empty input or parse
failure) gives Invalid and anything else is classified by
gnu::ClassifyFunction. -/
def itaniumClassify (ast : Option INode) (out : SymbolFeatures) :
    SymbolKind × SymbolFeatures :=
  let out := out.clear
  match ast with
  | none => (.Invalid, out)
  | some a => gnuClassifyFunction (some a) out

/-- The AST produced by the llvm itanium demangler (an external
collaborator, parse with ParseParams=false) for the mangled symbol
"_ZN7cocos2d11CCLightningD2Ev", which demangles to
"cocos2d::CCLightning::~CCLightning()" (base-object destructor, D2):
the parser accumulates the prefix cocos2d::CCLightning as a NestedName,
passes that prefix node as the CtorDtorName basename, and pushes the
CtorDtorName as the final component of the top-level NestedName. -/
def ccLightningDtorAST : INode :=
  let classNode : INode := .nestedName (.nameType "cocos2d") (.nameType "CCLightning")
  .nestedName classNode (.ctorDtorName classNode true 2)

/-! ## Microsoft classifier (driver/NameClassifier.cpp, namespace msvc)

The llvm microsoft demangler is likewise external; the classifier walks
the qualified-name component list of the parsed symbol node. -/

/-- The name-part node kinds consulted by msvc::GetRealNamePart; every
other kind is collapsed into otherPart. -/
inductive MsNamePart where
  | namedIdentifier (name : String)
  | literalOperatorIdentifier (name : String)
  | intrinsicFunctionIdentifier (opName : String)
  | conversionOperatorIdentifier (targetKindName : Option String)
  | structorIdentifier (cls : Option MsNamePart) (isDestructor : Bool)
  | otherPart (kindName : String)

/-- Kinds of top-level symbol nodes returned by the microsoft demangler;
only FunctionSymbol is tested by name in the classifier. -/
inductive MsNodeKind where
  | functionSymbol
  | variableSymbol
  | specialTableSymbol
  | otherSymbol
  deriving DecidableEq, Repr

/-- A top-level symbol node: its kind tag, and the component list of its
qualified name (FunctionSymbolNode's Name->Components; empty when the
NodeArray is null). The source casts the node to FunctionSymbolNode
after its kind test; the components field is the value that cast reads. -/
structure MsSymbolNode where
  kind : MsNodeKind
  components : List MsNamePart

/-- msvc::NameGetter::GetRealNamePart: an (optional string, flag) pair
modelling the PointerIntPair result. The destructor flag is set only in
the StructorIdentifier branch, where the recursion is applied to the
linked class node. -/
def GetRealNamePart : MsNamePart → Option String × Bool
  | .namedIdentifier name => (some name, false)
  | .literalOperatorIdentifier name => (some name, false)
  | .intrinsicFunctionIdentifier opName => (some opName, false)
  | .conversionOperatorIdentifier target => (target, false)
  | .structorIdentifier cls isDestructor =>
    match cls with
    | some c => ((GetRealNamePart c).1, isDestructor)
    | none => (none, false)
  | .otherPart _ => (none, false)

/-- msvc::GetNamePart: the name when present, "!" otherwise. -/
def GetNamePart (part : MsNamePart) : String :=
  match (GetRealNamePart part).1 with
  | some name => name
  | none => "!"

/-- msvc::ClassifyFunction, with a non-null output-features argument.
Two points are modelled exactly as written in the source: the guard
returns Invalid when the node kind IS FunctionSymbol (the node is then
cast to FunctionSymbolNode anyway on the fall-through path), and the
final structor branch chooses Constructor when the is-destructor flag of
GetRealNamePart(SID->Class) is set and Destructor when it is not. -/
def msvcClassifyFunction (astVal : Option MsSymbolNode) (out : SymbolFeatures) :
    SymbolKind × SymbolFeatures :=
  match astVal with
  | none => (.Invalid, out)
  | some ast =>
    if ast.kind = .functionSymbol then (.Invalid, out)
    else
      match ast.components with
      | [] => (.Invalid, out)
      | q0 :: qrest =>
        let qualNameAll := q0 :: qrest
        let lastNode := qualNameAll.getLast (List.cons_ne_nil q0 qrest)
        let qualName := qualNameAll.dropLast
        let writeFeatures (k : SymbolKind) (bName : Option String) :
            SymbolKind × SymbolFeatures :=
          let out1 := { out with SymKind := k }
          let out2 := qualName.foldl (fun f n => f.addNested (GetNamePart n)) out1
          let out3 :=
            match bName with
            | none => out2.setBase (GetNamePart lastNode)
            | some b => out2.setBase b
          (k, out3)
        match lastNode with
        | .namedIdentifier _ => (.Ignorable, { out with SymKind := .Ignorable })
        | .structorIdentifier cls _ =>
          match cls with
          | none => (.Invalid, out)
          | some c =>
            let eName := GetRealNamePart c
            let symKind : SymbolKind :=
              if eName.2 then .Constructor else .Destructor
            writeFeatures symKind eName.1
        | _ => writeFeatures .Other none

/-! ## Path manipulation (llvm/Support/Path, POSIX style)

The file-property cache calls llvm sys::path functions, which are an
external collaborator. They are modelled here for POSIX-style paths
following the llvm implementation (filename_pos, parent_path_end,
root_dir_start); the Windows-only cases and the "//net" root-name case
are out of scope. -/

/-- Index of the last '/' in the list, if any. -/
def lastSlashIdx (l : List Char) : Option Nat :=
  match findSub ['/'] l.reverse with
  | none => none
  | some i => some (l.length - 1 - i)

/-- llvm path::filename_pos: the index at which the filename component
starts. -/
def filenamePos (l : List Char) : Nat :=
  if l ≠ [] ∧ l.getLast? = some '/' then l.length - 1
  else
    match lastSlashIdx l with
    | none => 0
    | some pos => if pos = 1 ∧ l.head? = some '/' then 0 else pos + 1

/-- llvm path::filename: the last component of the path. -/
def pathFilename (l : List Char) : List Char := l.drop (filenamePos l)

/-- llvm path::root_dir_start for POSIX: index 0 when the path begins
with a separator. -/
def rootDirStart (l : List Char) : Option Nat :=
  if l.head? = some '/' then some 0 else none

/-- The separator-stripping loop inside llvm parent_path_end: decrement
the end position over separators, stopping at the start or just after
the root directory. -/
def stripSeps (l : List Char) (rootDirPos : Option Nat) : Nat → Nat
  | 0 => 0
  | e + 1 =>
    let aboveRoot := match rootDirPos with
      | none => true
      | some r => e + 1 > r + 1
    if aboveRoot && (l.get? e == some '/') then stripSeps l rootDirPos e
    else e + 1

/-- llvm path::parent_path_end. -/
def parentPathEnd (l : List Char) : Nat :=
  let endPos0 := filenamePos l
  let filenameWasSep := l ≠ [] ∧ l.get? endPos0 = some '/'
  let rootDirPos := rootDirStart l
  let endPos := stripSeps l rootDirPos endPos0
  if some endPos = rootDirPos ∧ ¬filenameWasSep then endPos + 1
  else endPos

/-- llvm path::parent_path. -/
def pathParentPath (l : List Char) : List Char := l.take (parentPathEnd l)

/-- llvm path::extension: from the last '.' of the filename component to
its end (including the dot); empty when the filename has no dot or is
"." or "..". -/
def pathExtension (l : List Char) : List Char :=
  let fname := pathFilename l
  match findSub ['.'] fname.reverse with
  | none => []
  | some i =>
    if fname = ['.'] ∨ fname = ['.', '.'] then []
    else fname.drop (fname.length - 1 - i)

/-! ## File-property cache (driver/FilePropertyCache.cpp) -/

/-- Token::FilePropertyKind (driver/PatternLex.hpp via Pattern.cpp). -/
inductive FilePropertyKind where
  | FPKUnknown
  | FPKFile
  | FPKStem
  | FPKDir
  | FPKExt
  deriving DecidableEq, Repr

/-- Token::GetFilePropertyKind. The source compares the incoming pointer
against the canonical constants Token::kStem, Token::kDir, Token::kExt;
every producer of a file-property token stores exactly one of those
constants, so pointer equality coincides with string equality here. An
empty string (the first byte is NUL) names the whole file. -/
def GetFilePropertyKind (s : String) : FilePropertyKind :=
  if s = "" then .FPKFile
  else if s = "stem" then .FPKStem
  else if s = "dir" then .FPKDir
  else if s = "ext" then .FPKExt
  else .FPKUnknown

/-- FilePropertyCache: the record filename plus lazily computed stem,
dir and ext (driver/FilePropertyCache.hpp, reconstructed from its uses
in driver/FilePropertyCache.cpp). -/
structure FilePropertyCache where
  filename : String
  stem : Option String := none
  dir : Option String := none
  ext : Option String := none
  deriving DecidableEq, Repr

/-- get_stem (driver/FilePropertyCache.cpp): the filename component of
the path, split at its FIRST dot, first half. -/
def get_stem (filename : String) : String :=
  String.mk (splitChar '.' (pathFilename filename.data)).1

namespace FilePropertyCache

/-- FilePropertyCache construction: record the path, no computation. -/
def new (filename : String) : FilePropertyCache := { filename := filename }

/-- FilePropertyCache::getPropertyRaw: dispatch on the property kind;
unknown properties fail; stem, dir and ext are computed on first use and
cached. The result pairs the property value with the updated cache. -/
def getPropertyRaw (c : FilePropertyCache) (prop : String) :
    Except String (String × FilePropertyCache) :=
  match GetFilePropertyKind prop with
  | .FPKUnknown => .error ("Unknown file property '" ++ prop ++ "'")
  | .FPKFile => .ok (c.filename, c)
  | .FPKStem =>
    match c.stem with
    | some s => .ok (s, c)
    | none =>
      let s := get_stem c.filename
      .ok (s, { c with stem := some s })
  | .FPKDir =>
    match c.dir with
    | some d => .ok (d, c)
    | none =>
      let d := String.mk (pathParentPath c.filename.data)
      .ok (d, { c with dir := some d })
  | .FPKExt =>
    match c.ext with
    | some e => .ok (e, c)
    | none =>
      let e := String.mk (pathExtension c.filename.data)
      .ok (e, { c with ext := some e })

/-- FilePropertyCache::getProperty: same dispatch (the source forwards
the StringRef data pointer to getPropertyRaw). -/
def getProperty (c : FilePropertyCache) (prop : String) :
    Except String (String × FilePropertyCache) :=
  c.getPropertyRaw prop

end FilePropertyCache

/-! ## llvm::Regex (external collaborator)

RegexPattern::match calls llvm::Regex::match, a POSIX regexec search:
it succeeds whenever the regular expression matches ANY substring of
the input (the expression is not anchored). The model below parses the
restricted flavor emitted by the compound lexer (identifier characters,
character classes with ranges and POSIX named classes, the wildcard
dot, the quantifiers ?, * and +, and parenthesized literal groups) and
searches all substrings. -/

/-- One item of a bracket character class. -/
inductive CItem where
  | ch (c : Char)
  | range (lo hi : Char)
  | posixCls (name : String)
  deriving DecidableEq, Repr

/-- Whether a class item matches a character. -/
def CItem.matchesChar : CItem → Char → Bool
  | .ch c, x => x = c
  | .range lo hi, x => lo ≤ x ∧ x ≤ hi
  | .posixCls n, x =>
    if n = "upper" then isLLVMUpper x
    else if n = "lower" then isLLVMLower x
    else if n = "alpha" then isLLVMUpper x ∨ isLLVMLower x
    else if n = "digit" then isLLVMDigit x
    else if n = "alnum" then isLLVMAlnum x
    else if n = "xdigit" then
      isLLVMDigit x ∨ ('a' ≤ x ∧ x ≤ 'f') ∨ ('A' ≤ x ∧ x ≤ 'F')
    else false

/-- Regular expressions over characters. -/
inductive RE where
  | eps
  | never
  | anyChar
  | lit (c : Char)
  | cls (neg : Bool) (items : List CItem)
  | seq (a b : RE)
  | alt (a b : RE)
  | star (a : RE)
  deriving DecidableEq, Repr

namespace RE

/-- Whether the expression accepts the empty string. -/
def nullable : RE → Bool
  | .eps => true
  | .never => false
  | .anyChar => false
  | .lit _ => false
  | .cls _ _ => false
  | .seq a b => a.nullable ∧ b.nullable
  | .alt a b => a.nullable ∨ b.nullable
  | .star _ => true

/-- Sequencing with the absorbing and unit laws applied, so that
derivative terms stay small; the recognized language is unchanged. -/
def seqS : RE → RE → RE
  | .never, _ => .never
  | .eps, b => b
  | a, b =>
    match b with
    | .never => .never
    | .eps => a
    | _ => .seq a b

/-- Alternation with the absorbing law applied. -/
def altS : RE → RE → RE
  | .never, b => b
  | a, b =>
    match b with
    | .never => a
    | _ => .alt a b

/-- Brzozowski derivative (built with the smart constructors). -/
def deriv : RE → Char → RE
  | .eps, _ => .never
  | .never, _ => .never
  | .anyChar, _ => .eps
  | .lit c, x => if x = c then .eps else .never
  | .cls neg items, x =>
    if (items.any (·.matchesChar x)) ≠ neg then .eps else .never
  | .seq a b, x =>
    if a.nullable then altS (seqS (a.deriv x) b) (b.deriv x)
    else seqS (a.deriv x) b
  | .alt a b, x => altS (a.deriv x) (b.deriv x)
  | .star a, x => seqS (a.deriv x) (.star a)

/-- Whole-string acceptance. -/
def accepts (r : RE) (s : List Char) : Bool := (s.foldl deriv r).nullable

/-- Unanchored search, as performed by POSIX regexec and hence by
llvm::Regex::match: some substring is accepted. -/
def searchSub (r : RE) (s : List Char) : Bool :=
  (List.range (s.length + 1)).any fun i =>
    (List.range (s.length - i + 1)).any fun j =>
      r.accepts ((s.drop i).take j)

end RE

mutual

/-- Parse the items of a bracket class up to the closing bracket. -/
def parseClsItems (fuel : Nat) (l : List Char) (acc : List CItem) :
    Option (List CItem × List Char) :=
  match fuel with
  | 0 => none
  | f + 1 =>
    match l with
    | [] => none
    | ']' :: rest => some (acc.reverse, rest)
    | '[' :: ':' :: rest =>
      let name := rest.takeWhile (· ≠ ':')
      let rest2 := rest.dropWhile (· ≠ ':')
      match rest2 with
      | ':' :: ']' :: rest3 =>
        parseClsItems f rest3 (.posixCls (String.mk name) :: acc)
      | _ => none
    | a :: '-' :: b :: rest =>
      if b = ']' then parseClsItems f (']' :: rest) (.ch '-' :: .ch a :: acc)
      else parseClsItems f rest (.range a b :: acc)
    | a :: rest => parseClsItems f rest (.ch a :: acc)

/-- Parse one atom: a parenthesized group, a bracket class, the wildcard
dot, or a literal character. -/
def parseAtom (fuel : Nat) (l : List Char) : Option (RE × List Char) :=
  match fuel with
  | 0 => none
  | f + 1 =>
    match l with
    | [] => none
    | '(' :: rest =>
      match parseSeq f RE.eps rest with
      | some (r, ')' :: rest2) => some (r, rest2)
      | _ => none
    | '[' :: '^' :: rest =>
      match parseClsItems f rest [] with
      | some (items, rest2) => some (.cls true items, rest2)
      | none => none
    | '[' :: rest =>
      match parseClsItems f rest [] with
      | some (items, rest2) => some (.cls false items, rest2)
      | none => none
    | '.' :: rest => some (.anyChar, rest)
    | c :: rest =>
      if c = ')' ∨ c = '?' ∨ c = '*' ∨ c = '+' ∨ c = ']' then none
      else some (.lit c, rest)

/-- Parse a sequence of quantified atoms, stopping at ')' or the end. -/
def parseSeq (fuel : Nat) (acc : RE) (l : List Char) :
    Option (RE × List Char) :=
  match fuel with
  | 0 => none
  | f + 1 =>
    match l with
    | [] => some (acc, [])
    | ')' :: rest => some (acc, ')' :: rest)
    | _ =>
      match parseAtom f l with
      | none => none
      | some (a, rest) =>
        match rest with
        | '?' :: rest2 => parseSeq f (.seq acc (.alt a .eps)) rest2
        | '*' :: rest2 => parseSeq f (.seq acc (.star a)) rest2
        | '+' :: rest2 => parseSeq f (.seq acc (.seq a (.star a))) rest2
        | _ => parseSeq f (.seq acc a) rest

end

/-- llvm::Regex::match on the restricted flavor: compile the expression
and search all substrings of the target. An expression outside the
modelled flavor yields false (no theorem depends on such a case). -/
def llvmRegexMatch (pat target : String) : Bool :=
  match parseSeq (2 * pat.length + 2) .eps pat.data with
  | some (r, []) => r.searchSub target.data
  | _ => false

/-! ## Pattern tokens (driver/PatternLex.hpp via its uses) -/

/-- Token::Kind. -/
inductive TokenKind where
  | KUnknown
  | KSimple
  | KAnonymous
  | KGlob
  | KThis
  | KLateBind
  | KRegex
  | KSimpleFmt
  | KRegexFmt
  deriving DecidableEq, Repr

/-- Pattern::Token: kind, text, trailing-argument count and grouping
flag (the size field is implicit in the text; the modified flag is never
read by the code modelled here). -/
structure Token where
  kind : TokenKind := .KSimple
  data : String := ""
  trailing : Nat := 0
  grouped : Bool := false
  deriving DecidableEq, Repr

namespace Token

/-- Token::New(Kind, Data, Grouped). -/
def New (k : TokenKind) (data : String) (grouped : Bool := false) : Token :=
  { kind := k, data := data, grouped := grouped }

/-- Token::str. -/
def str (t : Token) : String := t.data

/-- Token::kMaxTrailing. -/
def kMaxTrailing : Nat := 7

/-- Modelled from the spec: Token::isLiteral lives in PatternLex.hpp,
which is not among the sources; the spec defines the all-simple group
flag as "every token is literal or anonymous", so a token is literal
exactly when its kind is Simple or Anonymous. -/
def isLiteral (t : Token) : Bool :=
  t.kind = .KSimple ∨ t.kind = .KAnonymous

end Token

/-- IdentifyStandalone (driver/Pattern.cpp): "@" and "**". -/
def IdentifyStandalone (s : List Char) : TokenKind :=
  if s = ['@'] then .KAnonymous
  else if s = ['*', '*'] then .KGlob
  else .KUnknown

/-- GetValidReplacementMember (driver/Pattern.cpp): the empty member is
the whole file; stem, dir and ext are matched case-insensitively and
normalized to the canonical constants. -/
def GetValidReplacementMember (member : List Char) : Option String :=
  if member = [] then some ""
  else if eqInsensitive member "stem".data then some "stem"
  else if eqInsensitive member "dir".data then some "dir"
  else if eqInsensitive member "ext".data then some "ext"
  else none

/-- IsValidCaseRange (driver/Pattern.cpp): a range is valid only inside
one of the pools A-Z, 0-9, a-z, tested in that order on the start
character. -/
def IsValidCaseRange (start stop : Char) : Bool :=
  if isLLVMUpper start then isLLVMUpper stop
  else if isLLVMDigit start then isLLVMDigit stop
  else if isLLVMLower start then isLLVMLower stop
  else false

/-- IsValidPOSIXMetaclass (driver/Pattern.cpp). -/
def IsValidPOSIXMetaclass (cc : List Char) : Bool :=
  cc = "upper".data ∨ cc = "lower".data ∨ cc = "alpha".data ∨
  cc = "digit".data ∨ cc = "alnum".data ∨ cc = "xdigit".data

/-! ## Pattern lexer (driver/Pattern.cpp)

The lexer state carries the produced tokens, the unread pattern text,
the current segment, and the optional this-property cache. Interning is
the identity on Lean strings. Loops are written with explicit fuel; the
sentinel error below can only arise from fuel exhaustion and is never
produced on the concrete inputs evaluated in the theorems (the only
non-terminating source path is the wildcard case of
dispatchRegexChecker, which never advances the cursor). -/

/-- Sentinel for fuel exhaustion; distinct from every lexer message. -/
def fuelErr : String := "internal: fuel exhausted"

/-- The state of PatternLexer. -/
structure LexState where
  toks : List Token := []
  pat : List Char
  curr : List Char := []
  thisCache : Option FilePropertyCache := none

namespace LexState

/-- PatternLexer::report: errors carry the offending text. -/
def report (s : List Char) (msg : String) : String :=
  "invalid pattern '" ++ String.mk s ++ "', " ++ msg

/-- PatternLexer::done. -/
def done (st : LexState) : Bool := st.pat = [] ∧ st.curr = []

/-- PatternLexer::loadNextToken: split the pattern at the first "::",
trim the first piece into curr. -/
def loadNextToken (st : LexState) : Bool × LexState :=
  if st.pat = [] then (false, { st with curr := [] })
  else
    let (c, p) := splitSub "::".data st.pat
    (true, { st with curr := trim c, pat := p })

/-- PatternLexer::tok(Kind): push a token built from curr and clear it. -/
def tokCurr (st : LexState) (k : TokenKind) (grouped : Bool := false) :
    LexState :=
  { st with toks := st.toks ++ [Token.New k (String.mk st.curr) grouped],
            curr := [] }

/-- PatternLexer::tok(Kind, Data): push a token with explicit text; note
that this overload does not clear curr. -/
def tokData (st : LexState) (k : TokenKind) (data : String)
    (grouped : Bool := false) : LexState :=
  { st with toks := st.toks ++ [Token.New k data grouped] }

/-- PatternLexer::wasLastTokenGlob. -/
def wasLastTokenGlob (st : LexState) : Bool :=
  match st.toks.getLast? with
  | none => false
  | some t => t.kind = .KGlob

/-- PatternLexer::isReplacement: braces around a body with no further
opening brace. -/
def isReplacement (r : List Char) : Bool :=
  if r.length < 2 then false
  else if r.head? = some '\x7b' ∧ r.getLast? = some '\x7d' then
    r.count '\x7b' = 1
  else false

end LexState

/-- PatternLexer::handleReplacementImpl: classify a replacement body
obj.member; a this-reference is resolved immediately when a property
cache is available (threading any cache update through the state). -/
def handleReplacementImpl (st : LexState) (r : List Char) :
    Except String (Token × LexState) := do
  let r := trim r
  if r = [] then
    throw (LexState.report st.curr "empty replacement body")
  let (obj, member) := splitChar '.' r
  let objT := rtrim obj
  let tokKind : TokenKind :=
    if eqInsensitive objT "this".data ∨ eqInsensitive objT "self".data then
      .KThis
    else if eqInsensitive objT "file".data ∨ eqInsensitive objT "input".data then
      .KLateBind
    else .KUnknown
  if tokKind = .KUnknown then
    throw (LexState.report st.curr "unknown replacement object")
  let member := ltrim member
  match GetValidReplacementMember member with
  | some m =>
    match tokKind, st.thisCache with
    | .KThis, some c =>
      match c.getProperty m with
      | .error e => throw e
      | .ok (prop, c2) =>
        if ¬Character.isIdentifier prop.data then
          throw (LexState.report st.curr "replacement contains invalid characters")
        else
          pure (Token.New .KSimple prop, { st with thisCache := some c2 })
    | _, _ => pure (Token.New tokKind m, st)
  | none => throw (LexState.report st.curr "unknown replacement member")

/-- PatternLexer::handleReplacement: push the classified token and clear
curr. -/
def handleReplacement (st : LexState) (r : List Char) :
    Except String LexState := do
  let (tok, st) ← handleReplacementImpl st r
  pure { st with toks := st.toks ++ [tok], curr := [] }

/-- PatternLexer::handleSimple: consume leading simple identifier
segments, stopping at the first segment that is not pure identifier
text. -/
def handleSimple : Nat → LexState → Except String LexState
  | 0, _ => throw fuelErr
  | fuel + 1, st =>
    let (more, st) := st.loadNextToken
    if ¬more then pure st
    else if st.curr = [] then
      throw "invalid pattern: contains empty token"
    else if ¬Character.isIdentifier st.curr then pure st
    else
      match st.curr.head? with
      | some c =>
        if isLLVMDigit c then
          throw (LexState.report st.curr "identifiers cannot start with a number")
        else handleSimple fuel (st.tokCurr .KSimple)
      | none => throw "invalid pattern: contains empty token"

/-! ### Compound lexer (PatternLexer::CompoundLexer) -/

/-- The state of CompoundLexer: the segment being scanned, the cursor,
the last-read character class, the three accumulation flags, the emitted
regex text and the insertion-ordered replacement map (body text to
token). -/
structure CLexState where
  curr : List Char
  atPos : Nat := 0
  lastReadKind : Character.Kind := .KUnsupported
  hasRegex : Bool := false
  hasReplacements : Bool := false
  tempBuffer : List Char := []
  replacements : List (List Char × Token) := []

namespace CLexState

/-- CompoundLexer::at: the class of the current character, KEnd past the
end. -/
def charAt (cl : CLexState) : Character.Kind :=
  match cl.curr.get? cl.atPos with
  | none => .KEnd
  | some c => Character.identify c

/-- CompoundLexer::next: the class of the following character. -/
def nextKind (cl : CLexState) : Character.Kind :=
  match cl.curr.get? (cl.atPos + 1) with
  | none => .KEnd
  | some c => Character.identify c

/-- The character under the cursor; the NUL default mirrors reading the
terminator and is never reached on the inputs evaluated below. -/
def curChar (cl : CLexState) : Char := (cl.curr.get? cl.atPos).getD '\x00'

end CLexState

/-- CompoundLexer::handleRegexError: the targeted diagnostics for
characters that cannot begin a regex atom. -/
def clexHandleRegexError (lexCurr : List Char) (cl : CLexState)
    (k : Character.Kind) : String :=
  match k with
  | .KOpenCurly =>
    LexState.report lexCurr "quantifiers not allowed in this regex flavor"
  | .KRange | .KNot =>
    LexState.report lexCurr
      ("character '" ++ String.mk [cl.curChar] ++ "' found outside character class")
  | .KCloseParen | .KCloseBrace | .KCloseCurly =>
    LexState.report lexCurr ("unopened '" ++ String.mk [cl.curChar] ++ "'")
  | .KWhitespace => LexState.report lexCurr "whitespace found in pattern"
  | _ =>
    LexState.report lexCurr
      ("invalid character '" ++ String.mk [cl.curChar] ++ "' in pattern")

/-- CompoundLexer::handleKleeneOrQuantifier. -/
def clexHandleKleene (lexCurr : List Char) (cl : CLexState)
    (k : Character.Kind) : Except String CLexState := do
  if cl.lastReadKind = .KUnsupported then
    throw (LexState.report lexCurr
      ("'" ++ String.mk [cl.curChar] ++ "' found at the start of pattern"))
  match cl.lastReadKind with
  | .KIdentifier | .KWildcard | .KCloseParen | .KCloseBrace => pure ()
  | .KZeroOrOne | .KKleene | .KKleenePlus =>
    if k ≠ .KZeroOrOne then
      if k = .KKleene ∧ cl.lastReadKind = .KKleene then
        throw (LexState.report lexCurr "glob not allowed in compound expressions")
      else
        throw (LexState.report lexCurr "found multiple quantifiers in a row")
    else if cl.nextKind = .KZeroOrOne then
      throw (LexState.report lexCurr "found multiple quantifiers in a row")
    else pure ()
  | .KCloseCurly => pure ()
  | _ => throw (clexHandleRegexError lexCurr cl k)
  pure { cl with tempBuffer := cl.tempBuffer ++ [cl.curChar],
                 atPos := cl.atPos + 1, lastReadKind := k }

/-- CompoundLexer::handleEscape(char): the expansion of the legal escape
letters. -/
def escapeExpansion (c : Char) : List Char :=
  if c = 'a' then "[A-Za-z]".data
  else if c = 'd' then "[0-9]".data
  else if c = 'w' then "[A-Za-z0-9_]".data
  else "[A-Za-z0-9_$]".data

/-- CompoundLexer::handleEscape(). -/
def clexHandleEscape (lexCurr : List Char) (cl : CLexState) :
    Except String CLexState := do
  if cl.nextKind = .KEnd then
    throw (LexState.report lexCurr "character must follow escape sequence")
  let c := (cl.curr.get? (cl.atPos + 1)).getD '\x00'
  if c = 'a' ∨ c = 'd' ∨ c = 'w' ∨ c = 'i' then
    pure { cl with tempBuffer := cl.tempBuffer ++ escapeExpansion c,
                   atPos := cl.atPos + 2, lastReadKind := .KCloseBrace }
  else if c = 'n' ∨ c = 'r' ∨ c = 't' ∨ c = '0' then
    throw (LexState.report lexCurr "whitespace escapes are not allowed")
  else
    throw (LexState.report lexCurr
      ("invalid escape sequence '\\" ++ String.mk [c] ++ "'"))

/-- The scan for the closing bracket of a character class, tracking one
level of POSIX-block nesting (the loop of
CompoundLexer::handleCharacterClass). Returns the index one past the
closing bracket. -/
def clexScanClassEnd (curr : List Char) (inPosix : Bool) (idx : Nat)
    (fuel : Nat) : Except String (Option Nat) :=
  match fuel with
  | 0 => throw fuelErr
  | fuel + 1 =>
    match curr.get? idx with
    | none => pure none
    | some c =>
      if c = ']' then
        if ¬inPosix then pure (some (idx + 1))
        else clexScanClassEnd curr false (idx + 1) fuel
      else if c = '[' then
        if inPosix then throw "NEST"
        else clexScanClassEnd curr true (idx + 1) fuel
      else clexScanClassEnd curr inPosix (idx + 1) fuel

/-- The POSIX-metaclass scan inside validateCharacterClass: advance from
the start of the name to the index of the closing colon. -/
def clexScanMetaclass (cc : List Char) (e : Nat) (idx : Nat) (fuel : Nat) :
    Except String Nat :=
  match fuel with
  | 0 => throw fuelErr
  | fuel + 1 =>
    match cc.get? idx with
    | none => throw "UNTERMINATED"
    | some c =>
      if c = ':' then pure idx
      else if idx + 1 ≥ e then throw "UNTERMINATED"
      else if ¬isLLVMLower c then throw "BADCHAR"
      else clexScanMetaclass cc e (idx + 1) fuel

/-- The content loop of CompoundLexer::validateCharacterClass, from
index i below e (the index of the closing bracket). -/
def clexValidateCCLoop (lexCurr cc : List Char) (e : Nat) (i : Nat)
    (start : Nat) (fuel : Nat) : Except String Unit :=
  match fuel with
  | 0 => throw fuelErr
  | fuel + 1 =>
    if i ≥ e then pure ()
    else
      let ci := (cc.get? i).getD '\x00'
      if ci = '-' then
        if i = start then
          throw (LexState.report cc "invalid character '-' found at end of class")
        else
          let cn := (cc.get? (i + 1)).getD '\x00'
          if ¬Character.isIdentifierChar cn then
            throw (LexState.report cc
              ("invalid character '" ++ String.mk [cn] ++ "' in case range"))
          else if ¬IsValidCaseRange ((cc.get? (i - 1)).getD '\x00') cn then
            throw (LexState.report cc
              ("invalid case range '" ++
               String.mk ((cc.drop (i - 1)).take 3) ++ "'"))
          else clexValidateCCLoop lexCurr cc e (i + 2) start fuel
      else if ci = '[' ∧ (cc.get? (i + 1)).getD '\x00' = ':' then
        if i + 5 ≥ e then
          throw (LexState.report cc "invalid POSIX metaclass")
        else
          match clexScanMetaclass cc e (i + 2) (cc.length + 1) with
          | .error "UNTERMINATED" =>
            throw (LexState.report cc "unterminated POSIX metaclass")
          | .error "BADCHAR" =>
            throw (LexState.report cc "invalid character in POSIX metaclass")
          | .error e2 => throw e2
          | .ok mcEnd =>
            if (cc.get? (mcEnd + 1)).getD '\x00' ≠ ']' then
              throw (LexState.report cc "unterminated POSIX metaclass")
            else
              let mcSize := mcEnd - (i + 2)
              let mc := (cc.drop (i + 2)).take mcSize
              if ¬IsValidPOSIXMetaclass mc then
                throw (LexState.report mc
                  ("unknown POSIX metaclass '" ++ String.mk mc ++ "'"))
              else clexValidateCCLoop lexCurr cc e (i + 2 + mcSize + 1 + 1)
                     start fuel
      else if ¬Character.isIdentifierChar ci then
        throw (LexState.report cc
          ("invalid character '" ++ String.mk [ci] ++ "' found in case range"))
      else clexValidateCCLoop lexCurr cc e (i + 1) start fuel

/-- CompoundLexer::validateCharacterClass. -/
def clexValidateCC (lexCurr cc : List Char) : Except String Unit := do
  if cc.length ≤ 2 then
    throw (LexState.report cc "invalid character class")
  let c1 := (cc.get? 1).getD '\x00'
  if c1 = '-' then
    throw (LexState.report cc "invalid character '-' found at start class")
  let start : Nat ←
    if c1 = '^' then
      if cc.length = 3 then
        throw (LexState.report cc "invalid character '^' found in class")
      else pure 2
    else pure 1
  clexValidateCCLoop lexCurr cc (cc.length - 1) start start (cc.length + 1)

/-- CompoundLexer::handleCharacterClass. -/
def clexHandleCharClass (lexCurr : List Char) (cl : CLexState) :
    Except String CLexState := do
  match clexScanClassEnd cl.curr false (cl.atPos + 1) (cl.curr.length + 2) with
  | .error "NEST" =>
    throw (LexState.report lexCurr "invalid character class nesting")
  | .error e => throw e
  | .ok none => throw (LexState.report lexCurr "unterminated character class")
  | .ok (some ccEnd) =>
    let cc := (cl.curr.drop cl.atPos).take (ccEnd - cl.atPos)
    clexValidateCC lexCurr cc
    pure { cl with tempBuffer := cl.tempBuffer ++ cc,
                   atPos := ccEnd, lastReadKind := .KCloseBrace }

/-- CompoundLexer::dispatchRegexChecker. The wildcard case sets the
last-read class and appends the identifier class but never advances the
cursor, exactly as in the source. -/
def clexDispatchRegex (lexCurr : List Char) (cl : CLexState)
    (k : Character.Kind) : Except String CLexState := do
  let cl := { cl with hasRegex := true }
  match k with
  | .KWildcard =>
    pure { cl with lastReadKind := .KWildcard,
                   tempBuffer := cl.tempBuffer ++ escapeExpansion 'i' }
  | .KZeroOrOne | .KKleene | .KKleenePlus => clexHandleKleene lexCurr cl k
  | .KEscape => clexHandleEscape lexCurr cl
  | .KOpenBrace => clexHandleCharClass lexCurr cl
  | .KOpenParen =>
    throw (LexState.report lexCurr "match groups currently unsupported")
  | _ => throw (clexHandleRegexError lexCurr cl k)

/-- Render the placeholder for replacement index i as written by the
compound lexer (a brace, the decimal index, a brace; the index is at
most kMaxTrailing, hence a single digit here). -/
def fmtPlaceholder (i : Nat) : List Char :=
  ['\x7b'] ++ (Nat.toDigits 10 i) ++ ['\x7d']

/-- CompoundLexer::handleReplacement. The source scans for the closing
brace checking the bound only after reading each character; the model
reports the unterminated error whenever no closing brace exists in the
remainder. -/
def clexHandleReplacement (st : LexState) (cl : CLexState) :
    Except String (CLexState × LexState) := do
  let rbegin := cl.atPos + 1
  match findSub ['\x7d'] (cl.curr.drop rbegin) with
  | none => throw (LexState.report st.curr "unterminated replacement block")
  | some off =>
    let rend := rbegin + off
    let r := trim ((cl.curr.drop rbegin).take off)
    let isThisWithCache :=
      st.thisCache.isSome ∧ "this".data.isPrefixOf (r.map llvmToLower)
    if h : isThisWithCache ∧ st.thisCache.isSome then
      let c := st.thisCache.get (by exact h.2)
      match GetValidReplacementMember (splitChar '.' r).2 with
      | none => throw (LexState.report st.curr "invalid property name")
      | some m =>
        match c.getProperty m with
        | .error e => throw e
        | .ok (prop, c2) =>
          if ¬Character.isIdentifier prop.data then
            throw (LexState.report st.curr "replacement contains invalid characters")
          else
            pure ({ cl with
                      tempBuffer := cl.tempBuffer ++ ['('] ++ prop.data ++ [')'],
                      atPos := rend + 1,
                      lastReadKind := .KIdentifier },
                  { st with thisCache := some c2 })
    else
      let cl := { cl with hasReplacements := true }
      let (off2, cl, st) ←
        match (cl.replacements.findIdx? (fun p => p.1 = r)) with
        | some idx => pure (idx, cl, st)
        | none => do
          let (tok, st) ← handleReplacementImpl st r
          let tok := { tok with grouped := true }
          pure (cl.replacements.length,
                { cl with replacements := cl.replacements ++ [(r, tok)] }, st)
      if off2 > Token.kMaxTrailing then
        throw (LexState.report st.curr
          ("too many trailing arguments: " ++ toString off2))
      else
        pure ({ cl with tempBuffer := cl.tempBuffer ++ fmtPlaceholder off2,
                        atPos := rend + 1, lastReadKind := .KCloseCurly }, st)

/-- CompoundLexer::lexImpl: the character scan loop. -/
def clexImpl (fuel : Nat) (st : LexState) (cl : CLexState) :
    Except String (CLexState × LexState) :=
  match fuel with
  | 0 => throw fuelErr
  | fuel + 1 =>
    if cl.atPos ≥ cl.curr.length then pure (cl, st)
    else do
      let k := cl.charAt
      if k = .KOpenCurly then
        let (cl, st) ← clexHandleReplacement st cl
        clexImpl fuel st cl
      else if k = .KIdentifier then
        clexImpl fuel st
          { cl with tempBuffer := cl.tempBuffer ++ [cl.curChar],
                    atPos := cl.atPos + 1, lastReadKind := k }
      else do
        let cl ← clexDispatchRegex st.curr cl k
        clexImpl fuel st cl

/-- StripParentheses (driver/Pattern.cpp). -/
def StripParentheses (s : List Char) : List Char :=
  s.filter (fun c => c ≠ '(' ∧ c ≠ ')')

/-- CompoundLexer::finish: build the head token (SimpleFmt, Regex or
RegexFmt), then append the trailing replacement tokens with the last
one un-grouped. -/
def clexFinish (st : LexState) (cl : CLexState) : LexState :=
  let k : TokenKind :=
    if cl.hasRegex then
      if cl.hasReplacements then .KRegexFmt else .KRegex
    else .KSimpleFmt
  let main : Token :=
    { Token.New k (String.mk cl.tempBuffer) cl.hasReplacements with
        trailing := cl.replacements.length }
  let st := { st with toks := st.toks ++ [main] }
  if cl.hasReplacements then
    let n := cl.replacements.length
    let trailers := cl.replacements.enum.map fun (i, p) =>
      if i = n - 1 then { p.2 with grouped := false } else p.2
    { st with toks := st.toks ++ trailers }
  else st

/-- CompoundLexer::lex: a pure identifier segment becomes a Simple
token; otherwise the scan runs, and a segment that turned out to contain
neither regex nor replacements is emitted as a Simple token with
parentheses stripped; otherwise finish emits the compound group. -/
def clexLex (st : LexState) : Except String LexState := do
  if Character.isIdentifier st.curr then
    pure (st.tokCurr .KSimple)
  else
    let cl : CLexState := { curr := st.curr }
    let (cl, st) ← clexImpl (2 * cl.curr.length + 2) st cl
    if ¬cl.hasRegex ∧ ¬cl.hasReplacements then
      pure (st.tokData .KSimple (String.mk (StripParentheses cl.tempBuffer)))
    else
      pure (clexFinish st cl)

/-- PatternLexer::handleCompound: strip a surrounding slash pair, then
run the compound lexer. -/
def handleCompound (st : LexState) : Except String LexState := do
  let st ←
    if "/".data.isPrefixOf st.curr then
      let c := st.curr.drop 1
      if endsWith "/".data c then
        pure { st with curr := c.take (c.length - 1) }
      else throw (LexState.report c "unknown sequence in compound.")
    else pure st
  clexLex st

/-- PatternLexer::lexImpl: the outer loop over segments. -/
def lexImplLoop (fuel : Nat) (st : LexState) : Except String LexState :=
  match fuel with
  | 0 => throw fuelErr
  | fuel + 1 => do
    if st.done then pure st
    else
      let st ← handleSimple (st.pat.length + 2) st
      if st.done then pure st
      else
        let sa := IdentifyStandalone st.curr
        if sa ≠ .KUnknown then
          if ¬st.wasLastTokenGlob ∨ sa ≠ .KGlob then
            lexImplLoop fuel (st.tokCurr sa)
          else
            lexImplLoop fuel st
        else if LexState.isReplacement st.curr then
          let r := (st.curr.drop 1).take (st.curr.length - 2)
          let st ← handleReplacement st r
          lexImplLoop fuel st
        else do
          let st ← handleCompound st
          lexImplLoop fuel st

/-- PatternLexer::lex: pre-validation, the main loop, post-validation. -/
def patternLex (st : LexState) : Except String LexState := do
  if endsWith "::".data st.pat then
    throw (LexState.report st.pat "cannot end with scope resolution")
  else if endsWith "@".data st.pat then
    throw (LexState.report st.pat "cannot end with anonymous namespace")
  else
    let pat0 := st.pat
    let st ← lexImplLoop (st.pat.length + 2) st
    if st.toks.length = 1 then
      match st.toks.getLast? with
      | some t =>
        if t.kind = .KGlob then
          throw (LexState.report pat0 "must contain non-glob particle")
        else if t.kind = .KAnonymous then
          throw (LexState.report pat0 "must contain non-anonymous particle")
        else pure st
      | none => pure st
    else pure st

/-- lexTokensForPattern (driver/Pattern.cpp): trim, drop a leading "::",
reject the empty pattern, then run the lexer; the result is the token
vector together with the final this-cache. -/
def lexTokensForPattern (pat : String)
    (thisCache : Option FilePropertyCache := none) :
    Except String (List Token × Option FilePropertyCache) := do
  let p := trim pat.data
  let p := consumeFront "::".data p
  if p = [] then throw "invalid pattern: cannot be empty"
  else
    let st ← patternLex { pat := p, thisCache := thisCache }
    pure (st.toks, st.thisCache)

/-! ## Replacers (driver/Pattern.hpp, driver/Pattern.cpp)

Late-bind replacers are arena objects referenced both from the matcher
(for the setFilename sweep) and from the node tree (the single pattern
each one embeds). They are modelled as a store (a list), and the tree
refers to an embedded pattern by its store index. -/

/-- FmtReplacer::ReplacerPiece: a literal piece, or the name of a file
property to substitute. -/
structure ReplacerPiece where
  text : String
  isFormat : Bool
  deriving DecidableEq, Repr

/-- One parsed item of an llvm format string (ReplacementItem with the
Empty items dropped). -/
inductive FmtItem where
  | litF (s : String)
  | fmtF (idx : Nat)
  deriving DecidableEq, Repr

/-- Decimal value of a digit run. -/
def digitsToNat (l : List Char) : Nat :=
  l.foldl (fun acc c => acc * 10 + (c.toNat - 48)) 0

/-- llvm formatv_object_base::parseFormatString, for the format strings
emitted by the compound lexer: literal runs, and single-digit indexed
holes written as a brace, the index, a brace. -/
def parseFormatString (fuel : Nat) (l : List Char) : List FmtItem :=
  match fuel with
  | 0 => []
  | fuel + 1 =>
    match findSub ['\x7b'] l with
    | none => if l = [] then [] else [.litF (String.mk l)]
    | some i =>
      let lit := l.take i
      let rest := l.drop (i + 1)
      let digits := rest.takeWhile isLLVMDigit
      let rest2 := rest.dropWhile isLLVMDigit
      match rest2 with
      | '\x7d' :: tail =>
        (if lit = [] then [] else [.litF (String.mk lit)]) ++
        (.fmtF (digitsToNat digits) :: parseFormatString fuel tail)
      | _ => [.litF (String.mk l)]

/-- FmtReplacer::ParseToks: the head token text is parsed as a format
string; literal items keep their text, and each indexed hole takes the
text of the corresponding trailing token (the canonical file-property
name). -/
def ParseToks (toks : List Token) : List ReplacerPiece :=
  match toks with
  | [] => []
  | head :: trailers =>
    (parseFormatString (head.data.length + 1) head.data.data).map fun item =>
      match item with
      | .litF s => { text := s, isFormat := false }
      | .fmtF idx =>
        { text := (trailers.get? idx).elim "" Token.str, isFormat := true }

/-- The three concrete replacer storages: ReplacerStorage of
SoloPattern, of RegexPattern, and of ProxySoloPattern. Each carries the
current text of its embedded pattern (default-constructed empty; the
RegexPattern optional starts unset). -/
inductive Replacer where
  | fmtSolo (pieces : List ReplacerPiece) (cur : String)
  | fmtRegex (pieces : List ReplacerPiece) (cur : Option String)
  | proxySolo (prop : String) (cur : String)
  deriving DecidableEq, Repr

/-- FmtReplacer::replace: concatenate the pieces, fetching formatted
pieces from the file-property cache. -/
def fmtReplace (pieces : List ReplacerPiece) (c : FilePropertyCache) :
    Except String (String × FilePropertyCache) := do
  let mut acc : String := ""
  let mut cache := c
  for p in pieces do
    if p.isFormat then
      match cache.getPropertyRaw p.text with
      | .error e => throw e
      | .ok (v, c2) =>
        acc := acc ++ v
        cache := c2
    else
      acc := acc ++ p.text
  pure (acc, cache)

/-- Replacer::replace, dispatched over the three storages: the new text
is written into the embedded pattern (for the regex storage it becomes
the freshly compiled expression). -/
def Replacer.replace (r : Replacer) (c : FilePropertyCache) :
    Except String (Replacer × FilePropertyCache) := do
  match r with
  | .fmtSolo pieces _ =>
    let (v, c2) ← fmtReplace pieces c
    pure (.fmtSolo pieces v, c2)
  | .fmtRegex pieces _ =>
    let (v, c2) ← fmtReplace pieces c
    pure (.fmtRegex pieces (some v), c2)
  | .proxySolo prop _ =>
    match c.getPropertyRaw prop with
    | .error e => throw e
    | .ok (v, c2) => pure (.proxySolo prop v, c2)

/-! ## Pattern nodes (driver/Pattern.hpp, driver/Pattern.cpp) -/

/-- SinglePattern leaves: an immutable SoloPattern, an immutable
RegexPattern, or a pattern embedded in the replacer at a store index
(the ReplacerStorage cases). -/
inductive SPat where
  | solo (text : String)
  | regex (re : String)
  | refCell (idx : Nat)
  deriving DecidableEq, Repr

/-- The pattern-node tree. The single constructor embeds a
SinglePattern used through the Pattern base interface (as produced by
makeReplacement); ForwardingPattern is distinct from it. -/
inductive Pat where
  | simple (parts : List String)
  | leadingSimple (parts : List String)
  | singleSeq (items : List SPat)
  | anySeq (items : List Pat)
  | forwarding (inner : SPat)
  | leadingGlob (trailing : Pat)
  | butterflyGlob (leading trailing : Pat)
  | single (sp : SPat)

namespace Pat

/-- Pattern::count(): the stored Count field; none models
VARIABLE_COUNT (the glob patterns are constructed without a count). -/
def countField : Pat → Option Nat
  | .simple parts => some parts.length
  | .leadingSimple parts => some parts.length
  | .singleSeq items => some items.length
  | .anySeq items => some items.length
  | .forwarding _ => some 1
  | .leadingGlob _ => none
  | .butterflyGlob _ _ => none
  | .single _ => some 1

mutual

/-- Pattern::requiredCount(). For AnySequence this is the RealCount
accumulated in its constructor; a MultiPattern child contributes its
own requiredCount and a SinglePattern child contributes 1, which equals
the child requiredCount in every case. -/
def requiredCount : Pat → Nat
  | .simple parts => parts.length
  | .leadingSimple parts => parts.length
  | .singleSeq items => items.length
  | .anySeq items => realCountList items
  | .forwarding _ => 1
  | .leadingGlob t => t.requiredCount
  | .butterflyGlob l t => l.requiredCount + t.requiredCount
  | .single _ => 1

/-- The RealCount accumulation loop of the AnySequencePattern
constructor. -/
def realCountList : List Pat → Nat
  | [] => 0
  | p :: rest => p.requiredCount + realCountList rest

end

end Pat

/-- SinglePattern::match: SoloPattern compares for string equality;
RegexPattern runs the llvm regex search. A RegexPattern whose optional
is still unset is dereferenced by the source (undefined); the model
returns false and no theorem exercises that case. A dangling store
index likewise cannot be produced by the compiler. -/
def SPat.matchName (ρ : List Replacer) : SPat → String → Bool
  | .solo t, name => t = name
  | .regex re, name => llvmRegexMatch re name
  | .refCell i, name =>
    match ρ.get? i with
    | some (.proxySolo _ cur) => cur = name
    | some (.fmtSolo _ cur) => cur = name
    | some (.fmtRegex _ (some re)) => llvmRegexMatch re name
    | some (.fmtRegex _ none) => false
    | none => false

mutual

/-- MultiPattern::match, dispatched over the node kinds exactly as the
overrides in driver/Pattern.cpp:
- SimplePattern: sizes equal and positionwise equal;
- LeadingSimplePattern: strictly more names than parts and the leading
  names equal the parts;
- SingleSequencePattern: sizes equal and positionwise leaf match;
- AnySequencePattern: at least RealCount names, then the children
  consume from the front; any leftover names are ignored;
- ForwardingPattern: exactly one name, forwarded to the leaf;
- LeadingGlobPattern: reads Trailing->count() (false when that is
  VARIABLE_COUNT, since no list is that long), then matches the last
  count names;
- ButterflyGlobPattern: reads both counts (the constructor asserts they
  are fixed; the variable case cannot be compiled), requires at least
  their sum, and matches the front and back slices;
- a bare SinglePattern has no MultiPattern::match and is only reached
  through matchSymbol or as an AnySequence child. -/
def Pat.matchNames (ρ : List Replacer) : Pat → List String → Bool
  | .simple parts, names =>
    if parts.length ≠ names.length then false
    else decide (parts = names)
  | .leadingSimple parts, names =>
    if parts.length ≥ names.length then false
    else decide (parts = names.take parts.length)
  | .singleSeq items, names =>
    if items.length ≠ names.length then false
    else (items.zip names).all fun (sp, n) => sp.matchName ρ n
  | .anySeq items, names =>
    if names.length < Pat.realCountList items then false
    else Pat.anySeqLoop ρ items names
  | .forwarding inner, names =>
    match names with
    | [n] => inner.matchName ρ n
    | _ => false
  | .leadingGlob t, names =>
    match t.countField with
    | none => false
    | some cnt =>
      if names.length < cnt then false
      else t.matchNames ρ (names.drop (names.length - cnt))
  | .butterflyGlob l t, names =>
    match l.countField, t.countField with
    | some lc, some tc =>
      if names.length < lc + tc then false
      else
        l.matchNames ρ (names.take lc) &&
        t.matchNames ρ (names.drop (names.length - tc))
    | _, _ => false
  | .single _, _ => false

/-- The consumption loop of AnySequencePattern::match: a SinglePattern
child takes one name from the front, a MultiPattern child takes its
requiredCount names. -/
def Pat.anySeqLoop (ρ : List Replacer) : List Pat → List String → Bool
  | [], _ => true
  | p :: rest, names =>
    match p with
    | .single sp =>
      match names with
      | [] => false
      | n :: ntail => sp.matchName ρ n && Pat.anySeqLoop ρ rest ntail
    | q =>
      let n := q.requiredCount
      q.matchNames ρ (names.take n) && Pat.anySeqLoop ρ rest (names.drop n)

end

/-- Pattern::matchSymbol: an empty name list never matches; a
SinglePattern requires exactly one name; a MultiPattern dispatches to
its match override. -/
def Pat.matchSymbol (ρ : List Replacer) (p : Pat) (syms : List String) :
    Bool :=
  if syms = [] then false
  else
    match p with
    | .single sp =>
      match syms with
      | [n] => sp.matchName ρ n
      | _ => false
    | q => q.matchNames ρ syms

/-! ## Symbol matcher (driver/SymbolMatcher.hpp, driver/SymbolMatcher.cpp) -/

/-- SymbolMatcher::TokenGroup: the token slice of one scope-segment
group is held directly (the source stores a pointer and a count). -/
structure TokenGroup where
  toks : List Token := []
  allSimple : Bool := false
  replacement : Bool := false
  leadingGlob : Bool := false
  deriving DecidableEq, Repr

/-- The outcomes of SymbolMatcher::splitIntoGroups. oobRead marks the
point where the source reads Toks[I] with I equal to the token count:
after absorbing a leading glob it dereferences the next token BEFORE
the bounds check, so a final glob token makes it read one past the end.
globAtEnd is the error the bounds check would produce; it is emitted
only after the dereference succeeded, so it is unreachable. -/
inductive SplitErr where
  | oobRead
  | seqGlobs
  | globAtEnd
  | emptyGroup
  | noGroups
  | fuelOut
  deriving DecidableEq, Repr

/-- The message texts of the reachable splitIntoGroups errors. -/
def SplitErr.message : SplitErr → String
  | .oobRead => "out-of-bounds token read"
  | .seqGlobs => "sequential globs not coalesced?"
  | .globAtEnd => "glob token found at end of pattern?"
  | .emptyGroup => "found empty group?"
  | .noGroups => "found no groups?"
  | .fuelOut => fuelErr

/-- The loop of SymbolMatcher::splitIntoGroups over the token index. -/
def splitLoop (toks : List Token) (fuel : Nat) (i : Nat)
    (acc : List TokenGroup) (globs : Nat) :
    Except SplitErr (List TokenGroup × Nat) :=
  match fuel with
  | 0 => throw .fuelOut
  | fuel + 1 =>
    match toks.get? i with
    | none =>
      if acc = [] then throw .noGroups else pure (acc, globs)
    | some t0 => do
      let (tok, i, leadingGlob, globs) ←
        if t0.kind = .KGlob then
          let globs := globs + 1
          let i2 := i + 1
          match toks.get? i2 with
          | none => throw SplitErr.oobRead
          | some t1 =>
            if t1.kind = .KGlob then throw SplitErr.seqGlobs
            else if i2 ≥ toks.length then throw SplitErr.globAtEnd
            else pure (t1, i2, true, globs)
        else pure (t0, i, false, globs)
      if tok.trailing > 0 then
        let group : TokenGroup :=
          { toks := (toks.drop i).take (tok.trailing + 1),
            allSimple := false, replacement := true,
            leadingGlob := leadingGlob }
        splitLoop toks fuel (i + tok.trailing + 1) (acc ++ [group]) globs
      else
        let taken := (toks.drop i).takeWhile fun t =>
          t.kind ≠ .KGlob ∧ t.trailing = 0
        if taken.length = 0 then throw SplitErr.emptyGroup
        else
          let group : TokenGroup :=
            { toks := taken, allSimple := taken.all Token.isLiteral,
              replacement := false, leadingGlob := leadingGlob }
          splitLoop toks fuel (i + taken.length) (acc ++ [group]) globs

/-- SymbolMatcher::splitIntoGroups: split the token vector into groups
and count the globs. -/
def splitIntoGroups (toks : List Token) :
    Except SplitErr (List TokenGroup × Nat) :=
  splitLoop toks (toks.length + 2) 0 [] 0

/-- Compile-time failures: lexer messages, splitIntoGroups outcomes, the
designated multi-glob rejection, and the llvm_unreachable branches of
the node builders (which abort in the source and are never reached from
lexer output). -/
inductive CompileErr where
  | lexErr (msg : String)
  | splitErr (e : SplitErr)
  | nGlobsUnimplemented
  | unreachableTokenKind
  deriving DecidableEq, Repr

/-- SymbolMatcher::makeSimple: the literal texts of an all-simple
group. -/
def makeSimple (group : TokenGroup) : Pat :=
  .simple (group.toks.map Token.str)

/-- SymbolMatcher::makeSingleSequence: per-token Solo, ProxySolo
(registered as a replacer) or Regex leaves. The default branch of the
source switch is llvm_unreachable. -/
def makeSingleSequence (group : TokenGroup) (ρ : List Replacer) :
    Except CompileErr (Pat × List Replacer) := do
  let mut items : List SPat := []
  let mut store := ρ
  for tok in group.toks do
    match tok.kind with
    | .KSimple | .KAnonymous =>
      items := items ++ [SPat.solo tok.str]
    | .KLateBind =>
      items := items ++ [SPat.refCell store.length]
      store := store ++ [Replacer.proxySolo tok.data ""]
    | .KRegex =>
      items := items ++ [SPat.regex tok.str]
    | _ => throw CompileErr.unreachableTokenKind
  pure (.singleSeq items, store)

/-- SymbolMatcher::makeReplacement: a SimpleFmt head builds a
ReplacerStorage of SoloPattern, a RegexFmt head one of RegexPattern;
the embedded pattern starts default-constructed. -/
def makeReplacement (group : TokenGroup) (ρ : List Replacer) :
    Except CompileErr (Pat × List Replacer) := do
  match group.toks.head? with
  | some head =>
    let pieces := ParseToks group.toks
    if head.kind = .KSimpleFmt then
      pure (.single (.refCell ρ.length), ρ ++ [Replacer.fmtSolo pieces ""])
    else if head.kind = .KRegexFmt then
      pure (.single (.refCell ρ.length), ρ ++ [Replacer.fmtRegex pieces none])
    else throw CompileErr.unreachableTokenKind
  | none => throw CompileErr.unreachableTokenKind

/-- SymbolMatcher::makeDispatch. -/
def makeDispatch (group : TokenGroup) (ρ : List Replacer) :
    Except CompileErr (Pat × List Replacer) :=
  if group.allSimple then pure (makeSimple group, ρ)
  else if group.replacement then makeReplacement group ρ
  else makeSingleSequence group ρ

/-- SymbolMatcher::compilePattern0Globs: a lone group compiles directly;
several groups become an AnySequence of their nodes. -/
def compilePattern0Globs (groups : List TokenGroup) (ρ : List Replacer) :
    Except CompileErr (Pat × List Replacer) := do
  match groups with
  | [g] => makeDispatch g ρ
  | _ => do
    let mut children : List Pat := []
    let mut store := ρ
    for g in groups do
      let (p, s2) ← makeDispatch g store
      children := children ++ [p]
      store := s2
    pure (.anySeq children, store)

/-- SymbolMatcher::wrap: box a SinglePattern in a ForwardingPattern;
every other node already presents the MultiPattern interface. -/
def wrapPat (p : Pat) : Pat :=
  match p with
  | .single sp => .forwarding sp
  | q => q

/-- SymbolMatcher::compilePattern1Globs: a leading glob wraps the whole
remainder as the trailing node; an interior glob splits the groups at
the glob-marked group into the butterfly halves. -/
def compilePattern1Globs (groups : List TokenGroup) (ρ : List Replacer) :
    Except CompileErr (Pat × List Replacer) := do
  match groups.head? with
  | some g0 =>
    if g0.leadingGlob then
      let (t, store) ← compilePattern0Globs groups ρ
      pure (.leadingGlob (wrapPat t), store)
    else
      let leading := groups.takeWhile (fun g => ¬g.leadingGlob)
      let trailing := groups.drop leading.length
      let (l, store) ← compilePattern0Globs leading ρ
      let (t, store) ← compilePattern0Globs trailing store
      pure (.butterflyGlob (wrapPat l) (wrapPat t), store)
  | none => throw CompileErr.unreachableTokenKind

/-- SymbolMatcher::compilePatternNGlobs: rejected with the designated
unimplemented error. -/
def compilePatternNGlobs (_groups : List TokenGroup) (_n : Nat) :
    Except CompileErr (Pat × List Replacer) :=
  throw CompileErr.nGlobsUnimplemented

/-- SymbolMatcher::compilePatternImpl(ArrayRef of tokens): group, then
dispatch on the glob count. -/
def compilePatternImplToks (toks : List Token) (ρ : List Replacer) :
    Except CompileErr (Pat × List Replacer) := do
  match splitIntoGroups toks with
  | .error e => throw (CompileErr.splitErr e)
  | .ok (groups, globs) =>
    if globs = 0 then compilePattern0Globs groups ρ
    else if globs = 1 then compilePattern1Globs groups ρ
    else compilePatternNGlobs groups globs

/-- The state of SymbolMatcher: the pattern cache (pattern text to a
null or valid arena index), the arena of compiled root nodes (indices
model pointers), the replacer list, the ctor and dtor pattern sets, the
current filename, and the permissive flag. -/
structure SymbolMatcher where
  patternMappings : List (String × Option Nat) := []
  arenaRoots : List Pat := []
  replacements : List Replacer := []
  ctorPatterns : List Nat := []
  dtorPatterns : List Nat := []
  currentFilename : Option String := none
  permissive : Bool := false

namespace SymbolMatcher

/-- StringMap lookup in the pattern cache. -/
def lookupMapping (m : List (String × Option Nat)) (key : String) :
    Option (Option Nat) :=
  match m with
  | [] => none
  | (k, v) :: rest => if k = key then some v else lookupMapping rest key

/-- Overwrite the cache entry for an existing key. -/
def setMapping (m : List (String × Option Nat)) (key : String)
    (v : Option Nat) : List (String × Option Nat) :=
  match m with
  | [] => []
  | (k, v0) :: rest =>
    if k = key then (k, v) :: rest else (k, v0) :: setMapping rest key v

/-- SymbolMatcher::compilePatternImpl(StringRef): lex (with no property
cache), then compile the tokens against the current replacer store. -/
def compilePatternImpl (m : SymbolMatcher) (pat : String) :
    Except CompileErr (Pat × List Replacer) := do
  match lexTokensForPattern pat none with
  | .error e => throw (CompileErr.lexErr e)
  | .ok (toks, _) => compilePatternImplToks toks m.replacements

/-- The cache-miss path of SymbolMatcher::compilePattern: the null
entry for the pattern is already in the map; compile, and on success
store the new node and fill the entry in (a failure leaves the null
entry in place). The returned index is the arena position of the root
node, the model of its pointer. -/
def compilePatternCached (m1 : SymbolMatcher) (pat : String) :
    Except CompileErr Nat × SymbolMatcher :=
  match m1.compilePatternImpl pat with
  | .error e => (.error e, m1)
  | .ok (root, store) =>
    (.ok m1.arenaRoots.length,
     { m1 with
         arenaRoots := m1.arenaRoots ++ [root],
         replacements := store,
         patternMappings :=
           setMapping m1.patternMappings pat (some m1.arenaRoots.length) })

/-- SymbolMatcher::compilePattern: memoized on the raw pattern text.
try_emplace records a null entry when the pattern is absent; a cache
hit with a non-null node returns it at once; otherwise the miss path
compiles and fills the entry in. -/
def compilePattern (m : SymbolMatcher) (pat : String) :
    Except CompileErr Nat × SymbolMatcher :=
  match lookupMapping m.patternMappings pat with
  | some (some id) => (.ok id, m)
  | some none => compilePatternCached m pat
  | none =>
    compilePatternCached
      { m with patternMappings := m.patternMappings ++ [(pat, none)] } pat

/-- SymbolMatcher::setFilename: intern the filename, build a fresh
file-property cache, and run every registered replacer in insertion
order; a failing replacer is fatal in strict mode and skipped in
permissive mode. -/
def setFilename (m : SymbolMatcher) (filename : String) :
    Except String SymbolMatcher := do
  let m := { m with currentFilename := some filename }
  let mut fpc := FilePropertyCache.new filename
  let mut store : List Replacer := []
  for r in m.replacements do
    match r.replace fpc with
    | .ok (r2, c2) =>
      store := store ++ [r2]
      fpc := c2
    | .error e =>
      if ¬m.permissive then throw e
      else store := store ++ [r]
  pure { m with replacements := store }

/-- MatchAgainst (driver/SymbolMatcher.cpp): some pattern of the set
matches the symbol names. -/
def matchAgainst (m : SymbolMatcher) (ids : List Nat)
    (syms : List String) : Bool :=
  ids.any fun id =>
    match m.arenaRoots.get? id with
    | some p => p.matchSymbol m.replacements syms
    | none => false

/-- SymbolMatcher::match: false unless the features are a constructor
or destructor, then dispatch to the corresponding pattern set. The
Variant field of the features is not consulted. -/
def matchFeatures (m : SymbolMatcher) (f : SymbolFeatures) : Bool :=
  if ¬f.isCtorDtor then false
  else if f.isCtor then m.matchAgainst m.ctorPatterns f.NestedNames
  else m.matchAgainst m.dtorPatterns f.NestedNames

end SymbolMatcher

/-! ## Auxiliary definitions for the claim statements -/

/-- MSVCClassifier::classify at the level of the demangler output: the
output features are cleared, a failed parse gives Invalid, anything
else is classified by msvc::ClassifyFunction. -/
def msvcClassify (ast : Option MsSymbolNode) (out : SymbolFeatures) :
    SymbolKind × SymbolFeatures :=
  let out := out.clear
  match ast with
  | none => (.Invalid, out)
  | some a => msvcClassifyFunction (some a) out

/-- The AST produced by the llvm microsoft demangler (an external
collaborator) for the mangled symbol "??1CCLightning@cocos2d@@QEAA@XZ",
the destructor cocos2d::CCLightning::~CCLightning: a FunctionSymbol
node whose qualified-name component list is the two enclosing named
identifiers followed by a structor identifier with the is-destructor
flag set and the class identifier linked. -/
def ccLightningMsDtorAST : MsSymbolNode :=
  { kind := .functionSymbol,
    components :=
      [.namedIdentifier "cocos2d",
       .namedIdentifier "CCLightning",
       .structorIdentifier (some (.namedIdentifier "CCLightning")) true] }

/-- Anchored (whole-string) matching of a regex source text, the
behavior the specification ascribes to Regex nodes; compare with
llvmRegexMatch, the unanchored search the code performs. -/
def llvmRegexWholeMatch (pat target : String) : Bool :=
  match parseSeq (2 * pat.length + 2) .eps pat.data with
  | some (r, []) => r.accepts target.data
  | _ => false

/-- The stem as the specification defines it: the leaf of the path with
only its LAST dotted suffix removed (so the stem of "a.b.cpp" would be
"a.b"); compare with get_stem, which splits at the first dot. -/
def specStemLastSuffix (filename : String) : String :=
  let fname := pathFilename filename.data
  match findSub ['.'] fname.reverse with
  | none => String.mk fname
  | some i => String.mk (fname.take (fname.length - 1 - i))

/-- The two mutating operations of SymbolFeatures, for stating the
invariant over arbitrary call sequences. -/
inductive FeatOp where
  | addNested (s : String)
  | setBase (s : String)
  deriving DecidableEq, Repr

/-- Apply one operation. -/
def applyFeatOp (f : SymbolFeatures) : FeatOp → SymbolFeatures
  | .addNested s => f.addNested s
  | .setBase s => f.setBase s

/-- Run a sequence of operations from a starting state. -/
def runFeatOps (f : SymbolFeatures) (ops : List FeatOp) : SymbolFeatures :=
  ops.foldl applyFeatOp f

/-- Whether an operation is a setBase call. -/
def FeatOp.isSetBase : FeatOp → Bool
  | .setBase _ => true
  | .addNested _ => false

/-! ## Supporting lemmas -/

theorem applyFeatOp_inv (f : SymbolFeatures) (op : FeatOp)
    (h : f.HasBaseName = true → f.NestedNames ≠ []) :
    (applyFeatOp f op).HasBaseName = true →
      (applyFeatOp f op).NestedNames ≠ [] := by
  cases op with
  | addNested s =>
    by_cases hb : f.HasBaseName
    · simpa [applyFeatOp, SymbolFeatures.addNested, hb] using h
    · simp [applyFeatOp, SymbolFeatures.addNested, hb]
  | setBase s =>
    simp [applyFeatOp, SymbolFeatures.setBase]

theorem applyFeatOp_mono (f : SymbolFeatures) (op : FeatOp)
    (h : f.HasBaseName = true) :
    (applyFeatOp f op).HasBaseName = true := by
  cases op with
  | addNested s => simp [applyFeatOp, SymbolFeatures.addNested, h]
  | setBase s => simp [applyFeatOp, SymbolFeatures.setBase]

theorem runFeatOps_inv (ops : List FeatOp) :
    ∀ (f : SymbolFeatures), (f.HasBaseName = true → f.NestedNames ≠ []) →
      ((runFeatOps f ops).HasBaseName = true →
        (runFeatOps f ops).NestedNames ≠ []) := by
  induction ops with
  | nil => intro f h; simpa [runFeatOps] using h
  | cons op rest ih =>
    intro f h
    simpa [runFeatOps, List.foldl_cons] using
      ih (applyFeatOp f op) (applyFeatOp_inv f op h)

theorem runFeatOps_mono (ops : List FeatOp) :
    ∀ (f : SymbolFeatures), f.HasBaseName = true →
      (runFeatOps f ops).HasBaseName = true := by
  induction ops with
  | nil => intro f h; simpa [runFeatOps] using h
  | cons op rest ih =>
    intro f h
    simpa [runFeatOps, List.foldl_cons] using
      ih (applyFeatOp f op) (applyFeatOp_mono f op h)

theorem runFeatOps_any_setBase (ops : List FeatOp) :
    ∀ (f : SymbolFeatures), ops.any FeatOp.isSetBase = true →
      (runFeatOps f ops).HasBaseName = true := by
  induction ops with
  | nil => intro f h; simp at h
  | cons op rest ih =>
    intro f h
    cases op with
    | addNested s =>
      have hrest : rest.any FeatOp.isSetBase = true := by
        simpa [FeatOp.isSetBase] using h
      simpa [runFeatOps, List.foldl_cons] using ih (applyFeatOp f (.addNested s)) hrest
    | setBase s =>
      have hb : (applyFeatOp f (.setBase s)).HasBaseName = true := by
        simp [applyFeatOp, SymbolFeatures.setBase]
      simpa [runFeatOps, List.foldl_cons] using
        runFeatOps_mono rest (applyFeatOp f (.setBase s)) hb

theorem dropLast_append_getLastD {α} (l : List α) (d : α) (h : l ≠ []) :
    l.dropLast ++ [l.getLastD d] = l := by
  have h1 : l.getLastD d = l.getLast h := by
    rw [List.getLastD_eq_getLast?, List.getLast?_eq_getLast l h]
    rfl
  rw [h1, List.dropLast_append_getLast h]

theorem lookupMapping_append_none (l : List (String × Option Nat))
    (k : String) (v : Option Nat)
    (h : SymbolMatcher.lookupMapping l k = none) :
    SymbolMatcher.lookupMapping (l ++ [(k, v)]) k = some v := by
  induction l with
  | nil => simp [SymbolMatcher.lookupMapping]
  | cons p rest ih =>
    obtain ⟨k0, v0⟩ := p
    simp only [SymbolMatcher.lookupMapping] at h
    simp only [List.cons_append, SymbolMatcher.lookupMapping]
    by_cases hk : k0 = k
    · rw [if_pos hk] at h
      cases h
    · rw [if_neg hk] at h
      rw [if_neg hk]
      exact ih h

theorem lookupMapping_setMapping (l : List (String × Option Nat))
    (k : String) (v w : Option Nat)
    (h : SymbolMatcher.lookupMapping l k = some w) :
    SymbolMatcher.lookupMapping (SymbolMatcher.setMapping l k v) k = some v := by
  induction l with
  | nil => simp [SymbolMatcher.lookupMapping] at h
  | cons p rest ih =>
    obtain ⟨k0, v0⟩ := p
    by_cases hk : k0 = k
    · simp [SymbolMatcher.setMapping, SymbolMatcher.lookupMapping, hk]
    · simp only [SymbolMatcher.lookupMapping] at h
      rw [if_neg hk] at h
      simp only [SymbolMatcher.setMapping]
      rw [if_neg hk]
      simp only [SymbolMatcher.lookupMapping]
      rw [if_neg hk]
      exact ih h

theorem compilePatternCached_lookup (m1 : SymbolMatcher) (pat : String)
    (id : Nat) (m2 : SymbolMatcher) (w : Option Nat)
    (hw : SymbolMatcher.lookupMapping m1.patternMappings pat = some w)
    (h : SymbolMatcher.compilePatternCached m1 pat = (.ok id, m2)) :
    SymbolMatcher.lookupMapping m2.patternMappings pat = some (some id) := by
  unfold SymbolMatcher.compilePatternCached at h
  rcases hi : m1.compilePatternImpl pat with e | pr
  · rw [hi] at h
    simp at h
  · obtain ⟨root, store⟩ := pr
    rw [hi] at h
    simp only [Prod.mk.injEq, Except.ok.injEq] at h
    obtain ⟨h1, h2⟩ := h
    rw [← h2, ← h1]
    exact lookupMapping_setMapping m1.patternMappings pat
      (some m1.arenaRoots.length) w hw

/-! ## Claims -/

/-- C1 (counterexample): for the Itanium symbol that demangles to
cocos2d::CCLightning::~CCLightning() (base-object destructor, variant
2), classify does NOT return the Destructor kind (it returns Invalid on
the constructor/destructor path) and the populated NestedNames is NOT
the three-element list the claim states. -/
theorem C1_counterexample :
    (itaniumClassify (some ccLightningDtorAST) {}).1 ≠
      SymbolKind.Destructor ∧
    (itaniumClassify (some ccLightningDtorAST) {}).2.NestedNames ≠
      ["cocos2d", "CCLightning", "CCLightning"] := by decide

/-- C1 (amended): for that symbol, ItaniumClassifier::classify
populates the output SymbolFeatures with NestedNames
["cocos2d", "CCLightning"] (the scope chain of the class, with the base
name CCLightning stored as the last element), baseName CCLightning,
kind Destructor and variant 2 in the features, but its RETURN VALUE is
SymbolKind::Invalid: the constructor/destructor success path of
gnu::ClassifyFunction ends in return SymbolKind::Invalid after the
debug dump. -/
theorem C1_itanium_dtor_features :
    itaniumClassify (some ccLightningDtorAST) {} =
      (SymbolKind.Invalid,
       { NestedNames := ["cocos2d", "CCLightning"],
         SymKind := .Destructor, Variant := 2, HasBaseName := true }) ∧
    (itaniumClassify (some ccLightningDtorAST) {}).2.baseName =
      "CCLightning" := by decide

/-- C2 (counterexample): the compiled Regex node for the pattern
"/y+/" DOES match the name "xyz", although the expression y+ matches
only a proper substring of it (the whole-string match fails); the claim
that such a name is rejected is therefore false. -/
theorem C2_counterexample :
    (SymbolMatcher.compilePattern {} "/y+/").2.matchAgainst [0] ["xyz"] =
      true ∧
    llvmRegexWholeMatch "y+" "xyz" = false := by decide

/-- C2 (amended): RegexPattern::match performs the unanchored search of
llvm::Regex::match, so a compiled Regex node matches a scope name
whenever the regex matches ANY substring of the name: the node compiled
from "/y+/" matches "xyz" (via the substring "y") and "y", and rejects
"xq", where no substring matches. -/
theorem C2_regex_substring_match :
    (SymbolMatcher.compilePattern {} "/y+/").2.matchAgainst [0] ["xyz"] =
      true ∧
    (SymbolMatcher.compilePattern {} "/y+/").2.matchAgainst [0] ["y"] =
      true ∧
    (SymbolMatcher.compilePattern {} "/y+/").2.matchAgainst [0] ["xq"] =
      false ∧
    llvmRegexWholeMatch "y+" "xyz" = false := by decide

/-- C3 (code bug): SymbolMatcher::match never consults the Variant
field. For the failing input, the features of a deleting destructor
(variant 0, kind Destructor) whose single scope name CCLightning is
matched by a registered destructor pattern, match returns true, where
both the claim and the specification require false. -/
theorem C3_variant_zero_still_matches :
    ({ (SymbolMatcher.compilePattern {} "CCLightning").2 with
         dtorPatterns := [0] } : SymbolMatcher).matchFeatures
      { NestedNames := ["CCLightning"], SymKind := .Destructor,
        Variant := 0, HasBaseName := true } = true := by decide

/-- C4 (code bug): msvc::ClassifyFunction returns Invalid for EVERY
parsed FunctionSymbol node, because its guard tests
kind() == FunctionSymbol instead of != (the node is cast to
FunctionSymbolNode immediately after). For the demangled destructor
cocos2d::CCLightning::~CCLightning the classifier therefore reports
Invalid, not Destructor, although the structor identifier carries the
is-destructor flag (second conjunct). -/
theorem C4_msvc_function_symbol_invalid :
    msvcClassify (some ccLightningMsDtorAST) {} =
      (SymbolKind.Invalid, ({} : SymbolFeatures)) ∧
    GetRealNamePart
        (MsNamePart.structorIdentifier
          (some (.namedIdentifier "CCLightning")) true) =
      (some "CCLightning", true) := by decide

/-- C5 (counterexample): the pattern "b::I{file.stem}" compiles to an
AnySequence node of required count 2, and after setFilename
"CCScheduler.cpp" it matches the THREE-element list
["b", "ICCScheduler", "x"]: an AnySequence does not require its input
to be exactly consumed, so the claimed match-arity equality fails. -/
theorem C5_counterexample :
    ((SymbolMatcher.compilePattern {} "b::I\x7bfile.stem\x7d").2.setFilename
        "CCScheduler.cpp").map
      (fun m => ((m.arenaRoots.get? 0).map Pat.requiredCount,
                 m.matchAgainst [0] ["b", "ICCScheduler", "x"])) =
      .ok (some 2, true) := by decide

/-- C5 (amended): the fixed-arity non-glob nodes Simple,
SingleSequence and Forwarding (and a bare SinglePattern reached through
matchSymbol) return false whenever the name-list length differs from
their required count; an AnySequence node returns false whenever the
list is SHORTER than its required count, but does not require exact
consumption: its children match a front slice and any leftover names
are ignored, so a longer list can match, as the compiled
"b::I{file.stem}" (required count 2) does on a three-element list. -/
theorem C5_match_arity :
    (∀ (ρ : List Replacer) (parts names : List String),
        names.length ≠ parts.length →
        Pat.matchNames ρ (.simple parts) names = false) ∧
    (∀ (ρ : List Replacer) (items : List SPat) (names : List String),
        names.length ≠ items.length →
        Pat.matchNames ρ (.singleSeq items) names = false) ∧
    (∀ (ρ : List Replacer) (sp : SPat) (names : List String),
        names.length ≠ 1 →
        Pat.matchNames ρ (.forwarding sp) names = false) ∧
    (∀ (ρ : List Replacer) (sp : SPat) (names : List String),
        names.length ≠ 1 →
        Pat.matchSymbol ρ (.single sp) names = false) ∧
    (∀ (ρ : List Replacer) (items : List Pat) (names : List String),
        names.length < Pat.realCountList items →
        Pat.matchNames ρ (.anySeq items) names = false) ∧
    ((SymbolMatcher.compilePattern {} "b::I\x7bfile.stem\x7d").2.setFilename
        "CCScheduler.cpp").map
      (fun m => ((m.arenaRoots.get? 0).map Pat.requiredCount,
                 m.matchAgainst [0] ["b", "ICCScheduler", "x"],
                 m.matchAgainst [0] ["b", "ICCScheduler"])) =
      .ok (some 2, true, true) := by
  refine ⟨?_, ?_, ?_, ?_, ?_, by decide⟩
  · intro ρ parts names h
    rw [Pat.matchNames]
    rw [if_pos (by omega)]
  · intro ρ items names h
    rw [Pat.matchNames]
    rw [if_pos (by omega)]
  · intro ρ sp names h
    match names with
    | [] => simp [Pat.matchNames]
    | [n] => exact absurd rfl h
    | a :: b :: t => simp [Pat.matchNames]
  · intro ρ sp names h
    match names with
    | [] => simp [Pat.matchSymbol]
    | [n] => exact absurd rfl h
    | a :: b :: t => simp [Pat.matchSymbol]
  · intro ρ items names h
    rw [Pat.matchNames]
    rw [if_pos h]

/-- C5 (witness): the arity statements of C5_match_arity instantiated
at concrete nodes and name lists. -/
theorem C5_match_arity_witness :
    Pat.matchNames [] (.simple ["a"]) [] = false ∧
    Pat.matchNames [] (.singleSeq [.solo "a"]) [] = false ∧
    Pat.matchNames [] (.forwarding (.solo "a")) [] = false ∧
    Pat.matchSymbol [] (.single (.solo "a")) ["x", "y"] = false ∧
    Pat.matchNames [] (.anySeq [Pat.simple ["a"]]) [] = false :=
  ⟨C5_match_arity.1 [] ["a"] [] (by decide),
   C5_match_arity.2.1 [] [.solo "a"] [] (by decide),
   C5_match_arity.2.2.1 [] (.solo "a") [] (by decide),
   C5_match_arity.2.2.2.1 [] (.solo "a") ["x", "y"] (by decide),
   C5_match_arity.2.2.2.2.1 [] [Pat.simple ["a"]] [] (by decide)⟩

/-- C6 (counterexample): the pattern "**::{file.stem}" compiled and
bound to the filename "CCScheduler.cpp" DOES match the one-element
scope list ["CCScheduler"]: the leading glob consumes zero or more
prefix elements, so no prefix element is required. -/
theorem C6_counterexample :
    ((SymbolMatcher.compilePattern {} "**::\x7bfile.stem\x7d").2.setFilename
        "CCScheduler.cpp").map
      (fun m => m.matchAgainst [0] ["CCScheduler"]) = .ok true := by decide

/-- C6 (amended): the compiled pattern "**::{file.stem}" matches
["cocos2d", "CCScheduler"] after setFilename "CCScheduler.cpp" and
["cocos2d", "CCLightning"] after setFilename "CCLightning.cpp"; it
ALSO matches the one-element list ["CCScheduler"] under
"CCScheduler.cpp", because LeadingGlobPattern::match only requires at
least as many names as the trailing node consumes — the glob matches
zero or more prefix elements. -/
theorem C6_leading_glob_matches :
    ((SymbolMatcher.compilePattern {} "**::\x7bfile.stem\x7d").2.setFilename
        "CCScheduler.cpp").map
      (fun m => (m.matchAgainst [0] ["cocos2d", "CCScheduler"],
                 m.matchAgainst [0] ["CCScheduler"])) = .ok (true, true) ∧
    ((SymbolMatcher.compilePattern {} "**::\x7bfile.stem\x7d").2.setFilename
        "CCLightning.cpp").map
      (fun m => m.matchAgainst [0] ["cocos2d", "CCLightning"]) =
      .ok true := by decide

/-- C7 (counterexample): for the filename "a.b.cpp" the stem property
is "a", not "a.b": get_stem splits the leaf at its FIRST dot, while the
claim removes only the last dotted suffix. -/
theorem C7_counterexample :
    ((FilePropertyCache.new "a.b.cpp").getPropertyRaw "stem").map Prod.fst =
      .ok "a" ∧
    specStemLastSuffix "a.b.cpp" = "a.b" ∧
    ("a" : String) ≠ "a.b" := by decide

/-- C7 (amended): for every filename, the file-property cache computes
the "stem" property as the leaf component truncated at its FIRST dot
(all dotted suffixes removed, not only the last one; the stem of
"a.b.cpp" is "a"), the "dir" property as the parent directory (or
empty) and the "ext" property as the last dotted suffix of the leaf
including the dot (or empty). -/
theorem C7_stem_first_dot (f : String) :
    ((FilePropertyCache.new f).getPropertyRaw "stem").map Prod.fst =
      .ok (String.mk ((pathFilename f.data).takeWhile (· ≠ '.'))) ∧
    ((FilePropertyCache.new f).getPropertyRaw "dir").map Prod.fst =
      .ok (String.mk (pathParentPath f.data)) ∧
    ((FilePropertyCache.new f).getPropertyRaw "ext").map Prod.fst =
      .ok (String.mk (pathExtension f.data)) :=
  ⟨rfl, rfl, rfl⟩

/-- C8 (code bug): lexing the pattern "a::**" passes the lexer pre- and
post-checks and yields the token sequence [Simple "a", Glob], and on
that sequence splitIntoGroups reaches the out-of-bounds token read: it
dereferences the token at index 2 (one past the end) BEFORE the bounds
check that would report "glob token found at end of pattern", so the
out-of-bounds access is reachable, contrary to the claim. -/
theorem C8_trailing_glob_oob :
    (lexTokensForPattern "a::**").map Prod.fst =
      .ok [Token.New .KSimple "a", Token.New .KGlob "**"] ∧
    splitIntoGroups [Token.New .KSimple "a", Token.New .KGlob "**"] =
      .error .oobRead := by decide

/-- C9: compilePattern is memoized on the raw pattern text: if a call
on some matcher state succeeds with node index id (indices into the
arena model node pointers, so equal index is pointer equality), then a
second call with the same pattern on the resulting state succeeds with
the same node index and leaves the state unchanged. -/
theorem C9_compile_cache (m : SymbolMatcher) (pat : String) (id : Nat)
    (m2 : SymbolMatcher)
    (h : m.compilePattern pat = (.ok id, m2)) :
    m2.compilePattern pat = (.ok id, m2) := by
  have hlook :
      SymbolMatcher.lookupMapping m2.patternMappings pat = some (some id) := by
    unfold SymbolMatcher.compilePattern at h
    rcases hl : SymbolMatcher.lookupMapping m.patternMappings pat with _ | w
    · rw [hl] at h
      exact compilePatternCached_lookup _ pat id m2 none
        (lookupMapping_append_none m.patternMappings pat none hl) h
    · rcases w with _ | id0
      · rw [hl] at h
        exact compilePatternCached_lookup _ pat id m2 none hl h
      · rw [hl] at h
        simp only [Prod.mk.injEq, Except.ok.injEq] at h
        obtain ⟨h1, h2⟩ := h
        rw [← h2, hl, h1]
  unfold SymbolMatcher.compilePattern
  rw [hlook]

/-- C9 (witness): compiling "foo" twice from the empty matcher returns
the same arena index both times. -/
theorem C9_compile_cache_witness :
    (SymbolMatcher.compilePattern {} "foo").2.compilePattern "foo" =
      (.ok 0, (SymbolMatcher.compilePattern {} "foo").2) :=
  C9_compile_cache {} "foo" 0 (SymbolMatcher.compilePattern {} "foo").2
    (by rfl)

/-- C10: SymbolFeatures keeps the base name as the last element of
NestedNames: after any operation sequence containing at least one
setBase, starting from a fresh features value, the base-name flag is
set, NestedNames is nonempty and equals its front part with baseName()
appended; a further setBase call replaces that last element instead of
appending, and a further addNested call leaves NestedNames unchanged. -/
theorem C10_base_name_last (ops : List FeatOp) (s t : String)
    (h : ops.any FeatOp.isSetBase = true) :
    (runFeatOps {} ops).HasBaseName = true ∧
    (runFeatOps {} ops).NestedNames ≠ [] ∧
    (runFeatOps {} ops).NestedNames.dropLast ++ [(runFeatOps {} ops).baseName]
      = (runFeatOps {} ops).NestedNames ∧
    (runFeatOps {} (ops ++ [.setBase s])).NestedNames =
      (runFeatOps {} ops).NestedNames.dropLast ++ [s] ∧
    (runFeatOps {} (ops ++ [.addNested t])).NestedNames =
      (runFeatOps {} ops).NestedNames := by
  have hbase : (runFeatOps {} ops).HasBaseName = true :=
    runFeatOps_any_setBase ops {} h
  have hne : (runFeatOps {} ops).NestedNames ≠ [] :=
    runFeatOps_inv ops {} (by intro hb; cases hb) hbase
  have happend : ∀ (op : FeatOp),
      runFeatOps {} (ops ++ [op]) = applyFeatOp (runFeatOps {} ops) op := by
    intro op
    simp [runFeatOps, List.foldl_append]
  refine ⟨hbase, hne, ?_, ?_, ?_⟩
  · exact dropLast_append_getLastD _ "" hne
  · rw [happend (.setBase s)]
    simp [applyFeatOp, SymbolFeatures.setBase, hbase]
  · rw [happend (.addNested t)]
    simp [applyFeatOp, SymbolFeatures.addNested, hbase]

/-- C10 (witness): the invariant instantiated at the operation
sequence addNested "cocos2d" then setBase "CCLightning". -/
theorem C10_base_name_last_witness :
    (runFeatOps {} [FeatOp.addNested "cocos2d",
                    FeatOp.setBase "CCLightning"]).HasBaseName = true ∧
    (runFeatOps {} [FeatOp.addNested "cocos2d",
                    FeatOp.setBase "CCLightning"]).NestedNames ≠ [] ∧
    (runFeatOps {} [FeatOp.addNested "cocos2d",
        FeatOp.setBase "CCLightning"]).NestedNames.dropLast ++
      [(runFeatOps {} [FeatOp.addNested "cocos2d",
          FeatOp.setBase "CCLightning"]).baseName]
      = (runFeatOps {} [FeatOp.addNested "cocos2d",
          FeatOp.setBase "CCLightning"]).NestedNames ∧
    (runFeatOps {} ([FeatOp.addNested "cocos2d",
        FeatOp.setBase "CCLightning"] ++ [.setBase "X"])).NestedNames =
      (runFeatOps {} [FeatOp.addNested "cocos2d",
          FeatOp.setBase "CCLightning"]).NestedNames.dropLast ++ ["X"] ∧
    (runFeatOps {} ([FeatOp.addNested "cocos2d",
        FeatOp.setBase "CCLightning"] ++ [.addNested "Y"])).NestedNames =
      (runFeatOps {} [FeatOp.addNested "cocos2d",
          FeatOp.setBase "CCLightning"]).NestedNames :=
  C10_base_name_last [.addNested "cocos2d", .setBase "CCLightning"] "X" "Y"
    (by decide)

end Debase

